import Mathlib

/-!
Verification of the batsign credential-validation side-car: a shallow
embedding of the in-memory API-key index (`internal/server/store.go`),
the ext_authz check handler (`internal/server/server.go`) and the hint
helper (`internal/apikey/apikey.go`), with theorems settling the spec's
claims about them.

Strings are modelled as lists of characters; Go maps are modelled as
functions into `Option`.
-/

namespace Batsign

/-- Go strings, modelled as lists of characters. -/
abbrev Str := List Char

/-- `models.APIKeyEntry`: the in-memory record for one credential. -/
structure APIKeyEntry where
  Name        : Str
  Email       : Str
  KeyHash     : Str
  KeyHint     : Str
  Description : Str
  Enabled     : Bool
deriving DecidableEq, Repr

/-- The fields read from the source object's `spec` map. A `none` models a
field that is absent (or not of the expected type, in which case the Go
`NestedString`/`NestedBool` helpers report `found = false`). -/
structure UnstructuredSpec where
  email       : Option Str
  keyHash     : Option Str
  keyHint     : Option Str
  description : Option Str
  enabled     : Option Bool
deriving DecidableEq, Repr

/-- An unstructured source object: its metadata name and, when present and
well-typed, its `spec` map. -/
structure Unstructured where
  name : Str
  spec : Option UnstructuredSpec
deriving DecidableEq, Repr

/-- `APIKeyStore.keyHashes`: the map from SHA-256 hash to record. -/
abbrev Index := Str → Option APIKeyEntry

/-- The freshly made (empty) `keyHashes` map. -/
def emptyIndex : Index := fun _ => none

/-- `parseAPIKey` (store.go): extracts an `APIKeyEntry` from an unstructured
object. Returns `none` only when the `spec` map is missing; each field not
found keeps its Go zero value (empty string), and `Enabled` defaults to
`true` when absent. -/
def parseAPIKey (obj : Unstructured) : Option APIKeyEntry :=
  match obj.spec with
  | none => none
  | some sp =>
      some { Name := obj.name
             Email := sp.email.getD []
             KeyHash := sp.keyHash.getD []
             KeyHint := sp.keyHint.getD []
             Description := sp.description.getD []
             Enabled := sp.enabled.getD true }

/-- `ValidateKey` (store.go): the hash is valid iff an entry exists for it
and that entry is enabled. -/
def ValidateKey (idx : Index) (keyHash : Str) : Bool :=
  match idx keyHash with
  | none => false
  | some entry => entry.Enabled

/-- `watch.EventType`: the kinds of watch events. `bookmark` and `error`
fall through the switch in `handleWatchEvent` without effect. -/
inductive EventType
  | added
  | modified
  | deleted
  | bookmark
  | error
deriving DecidableEq, Repr

/-- A watch event: its type and its object. `object = none` models an
event whose object is not an `*unstructured.Unstructured` (the failed type
assertion at the top of `handleWatchEvent`). -/
structure WatchEvent where
  type   : EventType
  object : Option Unstructured
deriving DecidableEq, Repr

/-- `handleWatchEvent` (store.go): parse the event's object, then upsert on
`Added`/`Modified` and delete on `Deleted`, keyed by the parsed entry's
`KeyHash`; anything that does not parse leaves the map untouched. -/
def handleWatchEvent (idx : Index) (event : WatchEvent) : Index :=
  match event.object with
  | none => idx
  | some obj =>
    match parseAPIKey obj with
    | none => idx
    | some entry =>
      match event.type with
      | .added => fun h => if h = entry.KeyHash then some entry else idx h
      | .modified => fun h => if h = entry.KeyHash then some entry else idx h
      | .deleted => fun h => if h = entry.KeyHash then none else idx h
      | _ => idx

/-- `syncAPIKeys` (store.go): clear the map (the prior contents are
discarded) and repopulate it from the listed items, inserting each item
that parses under its `KeyHash`. -/
def syncAPIKeys (_prior : Index) (items : List Unstructured) : Index :=
  items.foldl
    (fun m item =>
      match parseAPIKey item with
      | none => m
      | some entry => fun h => if h = entry.KeyHash then some entry else m h)
    (fun _ => none)

/-- `GenerateHint` (apikey.go): keys shorter than 8 characters are returned
as-is; otherwise the first 6 and last 2 characters with 13 stars between. -/
def GenerateHint (apiKey : Str) : Str :=
  if apiKey.length < 8 then apiKey
  else apiKey.take 6 ++ List.replicate 13 '*' ++ apiKey.drop (apiKey.length - 2)

/-- Request headers, modelled as a map from header name to value. -/
abbrev Headers := Str → Option Str

/-- The `authorization` header name. -/
def authorizationKey : Str := "authorization".toList

/-- The `x-api-key` header name. -/
def xApiKeyKey : Str := "x-api-key".toList

/-- The literal `"Bearer "` scheme token stripped by `extractAPIKey`. -/
def bearerToken : Str := "Bearer ".toList

/-- `extractAPIKey` (server.go): a bearer-scheme `authorization` value wins;
otherwise the `x-api-key` value; otherwise the empty string. -/
def extractAPIKey (headers : Headers) : Str :=
  match headers authorizationKey with
  | some auth =>
      if bearerToken.isPrefixOf auth then auth.drop bearerToken.length
      else (headers xApiKeyKey).getD []
  | none => (headers xApiKeyKey).getD []

/-- An ext_authz decision: allow, or deny with the response message. -/
inductive Decision
  | allow
  | deny (reason : String)
deriving DecidableEq, Repr

/-- The observable outcome of one `Check` call: the decision, the hint
logged on an invalid-key deny, the digest fragment logged on allow, and
the number of `ValidateKey` lookups performed. -/
structure CheckResult where
  decision     : Decision
  loggedHint   : Option Str
  loggedDigest : Option Str
  lookups      : Nat
deriving DecidableEq, Repr

/-- `Check` (server.go), parameterised by the digest function
(`apikey.HashAPIKey`, SHA-256 hex in the source): extract the key, deny
without any lookup when it is empty, otherwise hash it and consult
`ValidateKey` once. -/
def Check (hash : Str → Str) (idx : Index) (headers : Headers) : CheckResult :=
  if extractAPIKey headers = [] then
    { decision := .deny "Missing API key",
      loggedHint := none, loggedDigest := none, lookups := 0 }
  else if ValidateKey idx (hash (extractAPIKey headers)) then
    { decision := .allow, loggedHint := none,
      loggedDigest := some ((hash (extractAPIKey headers)).take 12), lookups := 1 }
  else
    { decision := .deny "Invalid or disabled API key",
      loggedHint := some (GenerateHint (extractAPIKey headers)),
      loggedDigest := none, lookups := 1 }

/-! ## Spec-side definitions for refinement claims -/

/-- Spec-side, from the resync contract: among the successfully parsed
entries, the most recently observed one whose `KeyHash` is `h`. -/
def lastEntryFor (entries : List APIKeyEntry) (h : Str) : Option APIKeyEntry :=
  entries.foldl (fun acc e => if e.KeyHash = h then some e else acc) none

/-- Spec-side: the most recently observed record of the fetched list that
parses and carries key hash `h`. -/
def lastParsedWithHash (items : List Unstructured) (h : Str) : Option APIKeyEntry :=
  lastEntryFor (items.filterMap parseAPIKey) h

/-! ## Helper lemmas -/

theorem isPrefixOf_append_self (p s : Str) : p.isPrefixOf (p ++ s) = true := by
  induction p with
  | nil => simp [List.isPrefixOf]
  | cons c tl ih => simp [List.isPrefixOf, ih]

theorem foldl_parse_eq_filterMap (items : List Unstructured) (m : Index) :
    (items.foldl
      (fun m item =>
        match parseAPIKey item with
        | none => m
        | some entry => fun h => if h = entry.KeyHash then some entry else m h) m) =
    ((items.filterMap parseAPIKey).foldl
      (fun m entry => fun h => if h = entry.KeyHash then some entry else m h) m) := by
  induction items generalizing m with
  | nil => rfl
  | cons it tl ih =>
      cases hp : parseAPIKey it <;>
        simp only [List.foldl_cons, List.filterMap_cons, hp, ih]

theorem foldl_upsert_apply (entries : List APIKeyEntry) (m : Index) (h : Str) :
    (entries.foldl (fun m entry => fun h2 => if h2 = entry.KeyHash then some entry else m h2) m) h =
      entries.foldl (fun acc e => if e.KeyHash = h then some e else acc) (m h) := by
  induction entries generalizing m with
  | nil => rfl
  | cons e tl ih =>
      simp only [List.foldl_cons]
      rw [ih]
      have hc : (if h = e.KeyHash then some e else m h) =
          (if e.KeyHash = h then some e else m h) := by
        by_cases hk : h = e.KeyHash
        · simp [hk]
        · rw [if_neg hk, if_neg (fun hh => hk hh.symm)]
      rw [hc]

theorem lastEntryFor_keyHash (entries : List APIKeyEntry) (h : Str) :
    ∀ e, lastEntryFor entries h = some e → e.KeyHash = h := by
  unfold lastEntryFor
  suffices H : ∀ (acc : Option APIKeyEntry),
      (∀ e, acc = some e → e.KeyHash = h) →
      ∀ e, entries.foldl (fun acc e => if e.KeyHash = h then some e else acc) acc = some e →
        e.KeyHash = h by
    exact H none (fun e he => by cases he)
  induction entries with
  | nil => exact fun acc hacc => hacc
  | cons x tl ih =>
      intro acc hacc e he
      refine ih (if x.KeyHash = h then some x else acc) ?_ e he
      intro e' he'
      by_cases hx : x.KeyHash = h
      · rw [if_pos hx] at he'
        cases he'
        exact hx
      · rw [if_neg hx] at he'
        exact hacc e' he'

theorem GenerateHint_length_long (s : Str) (hlen : 21 < s.length) :
    (GenerateHint s).length = 21 := by
  unfold GenerateHint
  rw [if_neg (by omega)]
  simp only [List.length_append, List.length_take, List.length_replicate,
    List.length_drop]
  omega

/-! ## Concrete inputs for witnesses and counterexamples -/

/-- A source object whose `spec` map is present but has no `keyHash`. -/
def missingHashObj : Unstructured :=
  { name := "alice".toList,
    spec := some { email := some ("alice@example.com".toList), keyHash := none,
                   keyHint := none, description := none, enabled := some true } }

/-- A well-formed source object carrying key hash `h` and the given flag. -/
def objWith (nm h : Str) (enabled : Bool) (descr : Str) : Unstructured :=
  { name := nm,
    spec := some { email := some (nm ++ "@example.com".toList), keyHash := some h,
                   keyHint := none, description := some descr,
                   enabled := some enabled } }

/-- Headers carrying only `x-api-key: short`. -/
def hdrsShort : Headers := fun k => if k = xApiKeyKey then some ("short".toList) else none

/-- Headers carrying only a 24-character `x-api-key`. -/
def hdrsLong : Headers :=
  fun k => if k = xApiKeyKey then some ("sk-abcdefghijklmnopqrst".toList) else none

/-- Headers carrying only `authorization: Bearer sk-1`. -/
def hdrsBearer : Headers :=
  fun k => if k = authorizationKey then some (bearerToken ++ "sk-1".toList) else none

/-- Headers carrying only `x-api-key: sk-1`. -/
def hdrsXKey : Headers :=
  fun k => if k = xApiKeyKey then some ("sk-1".toList) else none

/-- Headers carrying only a non-bearer `authorization` value. -/
def hdrsBasic : Headers :=
  fun k => if k = authorizationKey then some ("Basic Zm9v".toList) else none

/-! ## Claims -/

/-- C1: the spec requires a change event whose source representation lacks
`keyHash` to be discarded without touching the Index; the code instead
parses it to an entry whose `KeyHash` is the zero value and inserts it, so
an `added` event for `missingHashObj` turns the empty Index into one that
holds an entry under the empty-string key. -/
theorem handleWatchEvent_missing_keyHash_corrupts :
    emptyIndex ([] : Str) = none ∧
    handleWatchEvent emptyIndex ⟨EventType.added, some missingHashObj⟩ ([] : Str) =
      some { Name := "alice".toList, Email := "alice@example.com".toList, KeyHash := [],
             KeyHint := [], Description := [], Enabled := true } :=
  ⟨rfl, rfl⟩

/-- C2: `ValidateKey` returns true iff the Index holds a record under
exactly that hash whose `Enabled` flag is true; it returns the same false
both when no record exists and when the record is disabled. -/
theorem ValidateKey_iff_enabled (idx : Index) (h : Str) :
    (ValidateKey idx h = true ↔ ∃ e, idx h = some e ∧ e.Enabled = true) ∧
    (idx h = none → ValidateKey idx h = false) ∧
    (∀ e, idx h = some e → e.Enabled = false → ValidateKey idx h = false) := by
  refine ⟨?_, ?_, ?_⟩
  · cases hx : idx h with
    | none => simp [ValidateKey, hx]
    | some e => simp [ValidateKey, hx]
  · intro hx
    simp [ValidateKey, hx]
  · intro e hx he
    simp [ValidateKey, hx, he]

/-- C5: after a resync from the fetched list, the Index holds, at every
hash, exactly the most recently observed successfully parsed record with
that `keyHash` — independent of the prior Index contents — and every held
record sits under its own `KeyHash`. -/
theorem syncAPIKeys_exactly_lastParsed (prior : Index) (items : List Unstructured) (h : Str) :
    syncAPIKeys prior items h = lastParsedWithHash items h ∧
    (∀ e, syncAPIKeys prior items h = some e → e.KeyHash = h) := by
  have key : syncAPIKeys prior items h = lastParsedWithHash items h := by
    unfold syncAPIKeys lastParsedWithHash lastEntryFor
    rw [foldl_parse_eq_filterMap, foldl_upsert_apply]
  exact ⟨key, fun e he => lastEntryFor_keyHash _ h e (key ▸ he)⟩

/-- C7: applying an `added` event and then a `deleted` event for the same
`keyHash` leaves the Index with no entry under that hash, and a `deleted`
event for a hash not present in the Index changes nothing. -/
theorem handleWatchEvent_add_then_delete (idx : Index) (objA objD : Unstructured)
    (eA eD : APIKeyEntry)
    (hA : parseAPIKey objA = some eA) (hD : parseAPIKey objD = some eD)
    (hk : eA.KeyHash = eD.KeyHash) :
    handleWatchEvent (handleWatchEvent idx ⟨EventType.added, some objA⟩)
        ⟨EventType.deleted, some objD⟩ eA.KeyHash = none ∧
    (∀ (idx2 : Index) (obj : Unstructured) (e : APIKeyEntry),
      parseAPIKey obj = some e → idx2 e.KeyHash = none →
      ∀ h, handleWatchEvent idx2 ⟨EventType.deleted, some obj⟩ h = idx2 h) := by
  constructor
  · simp [handleWatchEvent, hA, hD, hk]
  · intro idx2 obj e hp hn h
    simp only [handleWatchEvent, hp]
    by_cases hh : h = e.KeyHash
    · rw [if_pos hh, hh, hn]
    · rw [if_neg hh]

/-- C8: applying two `modified` events A then B whose records share a
`keyHash` leaves the Index entry at that hash equal to B's record — last
write wins. -/
theorem handleWatchEvent_modified_last_write_wins (idx : Index) (objA objB : Unstructured)
    (eA eB : APIKeyEntry)
    (hA : parseAPIKey objA = some eA) (hB : parseAPIKey objB = some eB)
    (hk : eA.KeyHash = eB.KeyHash) :
    handleWatchEvent (handleWatchEvent idx ⟨EventType.modified, some objA⟩)
        ⟨EventType.modified, some objB⟩ eA.KeyHash = some eB := by
  simp [handleWatchEvent, hA, hB, hk]

/-- C9: when the source representation's `spec` is present, parsing
succeeds and the parsed record's `Enabled` flag is true when the `enabled`
field is absent and equals the field's value when it is present. -/
theorem parseAPIKey_enabled_default (obj : Unstructured) (sp : UnstructuredSpec)
    (hs : obj.spec = some sp) :
    ∃ e, parseAPIKey obj = some e ∧
      (sp.enabled = none → e.Enabled = true) ∧
      (∀ b, sp.enabled = some b → e.Enabled = b) := by
  refine ⟨{ Name := obj.name, Email := sp.email.getD [], KeyHash := sp.keyHash.getD [],
            KeyHint := sp.keyHint.getD [], Description := sp.description.getD [],
            Enabled := sp.enabled.getD true }, ?_, ?_, ?_⟩
  · simp [parseAPIKey, hs]
  · intro hn
    simp [hn]
  · intro b hb
    simp [hb]

/-- C4: a request whose headers hold no bearer-scheme `authorization` value
and no `x-api-key` field is denied with reason `Missing API key`, with no
`ValidateKey` lookup performed and nothing logged about a key. -/
theorem Check_missing_api_key (hash : Str → Str) (idx : Index) (headers : Headers)
    (hx : headers xApiKeyKey = none)
    (ha : ∀ v, headers authorizationKey = some v → bearerToken.isPrefixOf v = false) :
    Check hash idx headers =
      { decision := .deny "Missing API key", loggedHint := none,
        loggedDigest := none, lookups := 0 } := by
  have he : extractAPIKey headers = [] := by
    unfold extractAPIKey
    cases hv : headers authorizationKey with
    | none => simp [hx]
    | some v => simp [ha v hv, hx]
  unfold Check
  rw [if_pos he]

theorem Check_missing_api_key_witness :
    Check (fun s => s) emptyIndex (fun _ => none) =
      { decision := .deny "Missing API key", loggedHint := none,
        loggedDigest := none, lookups := 0 } :=
  Check_missing_api_key (fun s => s) emptyIndex (fun _ => none) rfl
    (fun _ hv => Option.noConfusion hv)

/-- C6: a request presenting credential `s` as `authorization: Bearer s`
and a request presenting it as `x-api-key: s` get identical check results
for the same Index state. -/
theorem Check_bearer_eq_xApiKey (hash : Str → Str) (idx : Index) (s : Str)
    (h1 h2 : Headers)
    (ha1 : h1 authorizationKey = some (bearerToken ++ s))
    (ha2 : h2 authorizationKey = none)
    (hx2 : h2 xApiKeyKey = some s) :
    Check hash idx h1 = Check hash idx h2 := by
  have e1 : extractAPIKey h1 = s := by
    unfold extractAPIKey
    rw [ha1]
    simp [isPrefixOf_append_self, List.drop_left]
  have e2 : extractAPIKey h2 = s := by
    unfold extractAPIKey
    rw [ha2]
    simp [hx2]
  unfold Check
  rw [e1, e2]

theorem Check_bearer_eq_xApiKey_witness :
    Check (fun s => s) emptyIndex hdrsBearer = Check (fun s => s) emptyIndex hdrsXKey :=
  Check_bearer_eq_xApiKey (fun s => s) emptyIndex ("sk-1".toList) hdrsBearer hdrsXKey
    (by decide) (by decide) (by decide)

/-- C10: an `authorization` value without the exact case-sensitive
`Bearer ` scheme is ignored: extraction falls back to `x-api-key`, and when
that is absent too the decision is `Missing API key` with no lookup — the
non-bearer value is never hashed or looked up. -/
theorem Check_non_bearer_falls_back (hash : Str → Str) (idx : Index) (headers : Headers)
    (v : Str)
    (ha : headers authorizationKey = some v)
    (hnb : bearerToken.isPrefixOf v = false) :
    extractAPIKey headers = (headers xApiKeyKey).getD [] ∧
    (headers xApiKeyKey = none →
      Check hash idx headers =
        { decision := .deny "Missing API key", loggedHint := none,
          loggedDigest := none, lookups := 0 }) := by
  have he : extractAPIKey headers = (headers xApiKeyKey).getD [] := by
    unfold extractAPIKey
    rw [ha]
    simp [hnb]
  refine ⟨he, fun hx => ?_⟩
  unfold Check
  rw [he, hx]
  rfl

theorem Check_non_bearer_falls_back_witness :
    extractAPIKey hdrsBasic = (hdrsBasic xApiKeyKey).getD [] ∧
    (hdrsBasic xApiKeyKey = none →
      Check (fun s => s) emptyIndex hdrsBasic =
        { decision := .deny "Missing API key", loggedHint := none,
          loggedDigest := none, lookups := 0 }) :=
  Check_non_bearer_falls_back (fun s => s) emptyIndex hdrsBasic ("Basic Zm9v".toList)
    (by decide) (by decide)

/-- C3 counterexample: presenting the 5-character value `short` against an
Index that does not hold it yields the invalid-key deny, and the hint the
handler logs is exactly the presented value — `GenerateHint` echoes values
shorter than 8 characters. -/
theorem Check_hint_equals_secret :
    (Check (fun s => s) emptyIndex hdrsShort).decision =
        Decision.deny "Invalid or disabled API key" ∧
    (Check (fun s => s) emptyIndex hdrsShort).loggedHint = some ("short".toList) ∧
    GenerateHint ("short".toList) = "short".toList :=
  ⟨by decide, by decide, by decide⟩

/-- C3 amended: whenever a deny logs a hint for a presented value longer
than 21 characters (every generated key has 46), the hint is 21 characters
long and neither equals the presented value nor contains it in full;
shorter presented values may be echoed partially or, under 8 characters,
verbatim. -/
theorem Check_deny_hint_partial (hash : Str → Str) (idx : Index) (headers : Headers)
    (hint : Str)
    (hlen : 21 < (extractAPIKey headers).length)
    (hlog : (Check hash idx headers).loggedHint = some hint) :
    (Check hash idx headers).decision = Decision.deny "Invalid or disabled API key" ∧
    hint.length = 21 ∧ hint ≠ extractAPIKey headers ∧
    (∀ pre post, hint ≠ pre ++ extractAPIKey headers ++ post) ∧
    (∀ idx2 : Index, (Check hash idx2 headers).decision = Decision.allow →
      (Check hash idx2 headers).loggedHint = none ∧
      (Check hash idx2 headers).loggedDigest =
        some ((hash (extractAPIKey headers)).take 12)) := by
  have hne : ¬extractAPIKey headers = [] := by
    intro h0
    rw [h0] at hlen
    simp at hlen
  have hallow : ∀ idx2 : Index, (Check hash idx2 headers).decision = Decision.allow →
      (Check hash idx2 headers).loggedHint = none ∧
      (Check hash idx2 headers).loggedDigest =
        some ((hash (extractAPIKey headers)).take 12) := by
    intro idx2 hd
    unfold Check at hd ⊢
    rw [if_neg hne] at hd ⊢
    by_cases hv2 : ValidateKey idx2 (hash (extractAPIKey headers)) = true
    · rw [if_pos hv2]
      exact ⟨rfl, rfl⟩
    · rw [if_neg hv2] at hd
      simp at hd
  unfold Check at hlog ⊢
  rw [if_neg hne] at hlog ⊢
  by_cases hv : ValidateKey idx (hash (extractAPIKey headers)) = true
  · rw [if_pos hv] at hlog
    simp at hlog
  · rw [if_neg hv] at hlog ⊢
    simp only [Option.some.injEq] at hlog
    subst hlog
    have h21 := GenerateHint_length_long (extractAPIKey headers) hlen
    refine ⟨rfl, h21, ?_, ?_, hallow⟩
    · intro he
      rw [he] at h21
      omega
    · intro pre post he
      have hl := congrArg List.length he
      simp only [List.length_append] at hl
      rw [h21] at hl
      omega

theorem Check_deny_hint_partial_witness :
    (Check (fun s => s) emptyIndex hdrsLong).decision =
        Decision.deny "Invalid or disabled API key" ∧
    (GenerateHint ("sk-abcdefghijklmnopqrst".toList)).length = 21 ∧
    GenerateHint ("sk-abcdefghijklmnopqrst".toList) ≠ extractAPIKey hdrsLong ∧
    (∀ pre post,
      GenerateHint ("sk-abcdefghijklmnopqrst".toList) ≠
        pre ++ extractAPIKey hdrsLong ++ post) ∧
    (∀ idx2 : Index, (Check (fun s => s) idx2 hdrsLong).decision = Decision.allow →
      (Check (fun s => s) idx2 hdrsLong).loggedHint = none ∧
      (Check (fun s => s) idx2 hdrsLong).loggedDigest =
        some ((extractAPIKey hdrsLong).take 12)) :=
  Check_deny_hint_partial (fun s => s) emptyIndex hdrsLong
    (GenerateHint ("sk-abcdefghijklmnopqrst".toList)) (by decide) (by decide)

/-- Two well-formed objects sharing key hash `h1`. -/
def objH1A : Unstructured := objWith ("a".toList) ("h1".toList) true []

/-- A second object for the same hash `h1`, used by the delete event. -/
def objH1D : Unstructured := objWith ("d".toList) ("h1".toList) true []

theorem handleWatchEvent_add_then_delete_witness :
    handleWatchEvent (handleWatchEvent emptyIndex ⟨EventType.added, some objH1A⟩)
        ⟨EventType.deleted, some objH1D⟩ ("h1".toList) = none ∧
    (∀ (idx2 : Index) (obj : Unstructured) (e : APIKeyEntry),
      parseAPIKey obj = some e → idx2 e.KeyHash = none →
      ∀ h, handleWatchEvent idx2 ⟨EventType.deleted, some obj⟩ h = idx2 h) :=
  handleWatchEvent_add_then_delete emptyIndex objH1A objH1D
    { Name := "a".toList, Email := ("a".toList ++ "@example.com".toList),
      KeyHash := "h1".toList, KeyHint := [], Description := [], Enabled := true }
    { Name := "d".toList, Email := ("d".toList ++ "@example.com".toList),
      KeyHash := "h1".toList, KeyHint := [], Description := [], Enabled := true }
    rfl rfl rfl

/-- Two modified-event objects sharing hash `h2` with differing payloads. -/
def objH2A : Unstructured := objWith ("a".toList) ("h2".toList) true ("v1".toList)

/-- The later of the two modified events for hash `h2`. -/
def objH2B : Unstructured := objWith ("a".toList) ("h2".toList) false ("v2".toList)

theorem handleWatchEvent_modified_lww_witness :
    handleWatchEvent (handleWatchEvent emptyIndex ⟨EventType.modified, some objH2A⟩)
        ⟨EventType.modified, some objH2B⟩ ("h2".toList) =
      some { Name := "a".toList, Email := ("a".toList ++ "@example.com".toList),
             KeyHash := "h2".toList, KeyHint := [], Description := "v2".toList,
             Enabled := false } :=
  handleWatchEvent_modified_last_write_wins emptyIndex objH2A objH2B
    { Name := "a".toList, Email := ("a".toList ++ "@example.com".toList),
      KeyHash := "h2".toList, KeyHint := [], Description := "v1".toList, Enabled := true }
    { Name := "a".toList, Email := ("a".toList ++ "@example.com".toList),
      KeyHash := "h2".toList, KeyHint := [], Description := "v2".toList, Enabled := false }
    rfl rfl rfl

/-- A source spec carrying a key hash but no `enabled` field. -/
def noEnabledSpec : UnstructuredSpec :=
  { email := none, keyHash := some ("h3".toList), keyHint := none,
    description := none, enabled := none }

/-- An object wrapping `noEnabledSpec`. -/
def noEnabledObj : Unstructured := { name := "bob".toList, spec := some noEnabledSpec }

theorem parseAPIKey_enabled_default_witness :
    ∃ e, parseAPIKey noEnabledObj = some e ∧
      (noEnabledSpec.enabled = none → e.Enabled = true) ∧
      (∀ b, noEnabledSpec.enabled = some b → e.Enabled = b) :=
  parseAPIKey_enabled_default noEnabledObj noEnabledSpec rfl

end Batsign
